import Mathlib

/-!
Verification of the disk-monitor telemetry core (main.go) against its
natural-language specification.

The Go program is shallowly embedded as follows:

* `uint64` values are `Nat` with explicit `% 2^64` wrapping where Go's
  unsigned subtraction can wrap (`getDiskSpace`'s `UsedSpace`).
* `time.Time` capture instants are modelled as `Nat` nanosecond counts
  measured from Go's zero time; `time.Duration` comparisons become `Int`
  subtraction.  The RFC3339 text produced by `encoding/json` for a
  `time.Time` is modelled as the decimal rendering of that count — an
  injective rendering whose parse is its inverse, which is the property
  of the library codec the specification relies on (byte-exact round
  trip of the instant).
* `float64` arithmetic (`float64(free)/1024/1024/1024`, `%.1f`
  formatting) is modelled as exact rational arithmetic; divisions by
  powers of two are exact in binary floating point, and Go's `%.1f`
  rounds to nearest with ties to even, which is reproduced exactly on
  `Nat` numerators and denominators.
* The probe scheduler (goroutines + channels) is modelled by its
  deterministic sequential semantics: every drive's probe reaches a
  terminal state (success, error or timeout — failures are `none`) and
  the successes are collected in drive order, which is the interleaving
  in which each task's result/error pair is received together.
* The file system is explicit state: a file is `Option String`
  (`none` = absent), `os.WriteFile` replaces the content, and an
  interrupted write leaves an arbitrary prefix of the new content.
-/

/-- Go struct `DiskInfo` (fields named after their stable JSON tags
`drive`, `total_space`, `free_space`, `used_space`). -/
structure DiskInfo where
  drive : String
  total_space : Nat
  free_space : Nat
  used_space : Nat
  deriving DecidableEq

/-- Go struct `Snapshot`: a capture instant and the probed volumes. -/
structure Snapshot where
  timestamp : Nat
  disks : List DiskInfo
  deriving DecidableEq

/-- Go struct `HistoryData`: the append-only sequence of snapshots. -/
structure HistoryData where
  snapshots : List Snapshot
  deriving DecidableEq

/-- Wrapping 64-bit subtraction: Go's `a - b` on `uint64` operands,
i.e. `(a - b) mod 2^64`. -/
def u64sub (a b : Nat) : Nat := (2 ^ 64 + a - b % 2 ^ 64) % 2 ^ 64

/-- Go `getDiskSpace`: one probe of one drive.  The Windows primitive
`GetDiskFreeSpaceExW` (together with its 2-second timeout race) is the
external collaborator `probe`; `none` models a failed or timed-out
call.  On success the returned record stores the probed totals verbatim
and `UsedSpace = totalNumberOfBytes - freeBytesAvailable`, Go `uint64`
subtraction.  No validation of `free ≤ total` is performed. -/
def getDiskSpace (probe : String → Option (Nat × Nat)) (drive : String) :
    Option DiskInfo :=
  match probe drive with
  | none => none
  | some (total, free) =>
    some { drive := drive, total_space := total, free_space := free,
           used_space := u64sub total free }

/-- Go `getAllDisksInfo`: fans `getDiskSpace` out over all drives and
collects the successful results in order, dropping failures.  The
result is a bare `List DiskInfo`; there is no separate signal for
"nothing was measured". -/
def getAllDisksInfo (drives : List String)
    (probe : String → Option (Nat × Nat)) : List DiskInfo :=
  drives.foldl (fun disks d =>
    match getDiskSpace probe d with
    | some info => disks ++ [info]
    | none => disks) []

/-- Rounding used by Go's `%.1f`: the first fractional digit of
`bytes / den`, rounded to nearest with ties to even.  The result is
`round(10 * bytes / den)` as a natural number. -/
def round1 (bytes den : Nat) : Nat :=
  let q := 10 * bytes / den
  let r := 10 * bytes % den
  if 2 * r < den then q
  else if den < 2 * r then q + 1
  else if q % 2 = 0 then q else q + 1

/-- Rendering of `%.1f` applied to `bytes / den`: the rounded value
with exactly one fractional digit. -/
def fmt1 (bytes den : Nat) : String :=
  Nat.repr (round1 bytes den / 10) ++ "." ++ Nat.repr (round1 bytes den % 10)

/-- Go's unit-scaling loop in `formatBytes` (`for n := bytes / unit;
n >= unit; n /= unit { div *= unit; exp++ }`), made structural on a
fuel argument (the loop runs at most `log₁₀₂₄ bytes` times, so any
fuel above `n` is enough). -/
def formatLoop : Nat → Nat → Nat → Nat → Nat × Nat
  | 0, _, den, e => (den, e)
  | fuel + 1, n, den, e =>
    if 1024 ≤ n then formatLoop fuel (n / 1024) (den * 1024) (e + 1)
    else (den, e)

/-- The character table `"KMGTPE"` indexed by the scaling exponent. -/
def unitChars : List Char := ['K', 'M', 'G', 'T', 'P', 'E']

/-- Go `formatBytes`: values under 1024 render as an integer byte
count; larger values scale by powers of 1024 and render with one
fractional digit and the unit letter `"KMGTPE"[exp]`. -/
def formatBytes (bytes : Nat) : String :=
  if bytes < 1024 then Nat.repr bytes ++ " B"
  else
    let p := formatLoop bytes (bytes / 1024) 1024 0
    fmt1 bytes p.1 ++ " " ++ String.singleton (unitChars.getD p.2 'K') ++ "B"

/-- Inner loop of the per-drive walks (`for _, disk := range
snapshot.Disks { if disk.Drive == drive { ...; break } }`): the first
entry of the snapshot whose name matches the drive, if any. -/
def findDisk (drive : String) : List DiskInfo → Option DiskInfo
  | [] => none
  | d :: rest => if d.drive = drive then some d else findDisk drive rest

/-- Free space of a probed volume in gigabytes, Go's
`float64(disk.FreeSpace)/1024/1024/1024` modelled exactly. -/
def freeGB (d : DiskInfo) : ℚ := (d.free_space : ℚ) / 1024 / 1024 / 1024

/-- Per-drive series loop of Go `updateChart`: walk the history in
stored order and append one gigabyte value for each snapshot that
contains the drive. -/
def driveSeries (h : HistoryData) (drive : String) : List ℚ :=
  h.snapshots.foldl (fun data s =>
    match findDisk drive s.disks with
    | some d => data ++ [freeGB d]
    | none => data) []

/-- Unique drive names over the whole history (`driveMap` keys),
sorted for a consistent order as `sort.Strings` does. -/
def uniqueDrives (h : HistoryData) : List String :=
  (h.snapshots.foldl (fun acc s =>
    s.disks.foldl (fun acc2 d =>
      if d.drive ∈ acc2 then acc2 else acc2 ++ [d.drive]) acc) []).mergeSort
    (fun a b => a ≤ b)

/-- The slice of the Bubble Tea `Model` that `updateChart` reads and
writes: the loaded history and the per-drive graph data. -/
structure Model where
  history : HistoryData
  graphs : List (String × List ℚ)
  deriving DecidableEq

/-- Go `updateChart`: with fewer than two snapshots it returns at once
(the model, graphs included, is untouched); otherwise it rebuilds the
graph data for every drive seen in the history. -/
def updateChart (m : Model) : Model :=
  if m.history.snapshots.length < 2 then m
  else { m with
    graphs := (uniqueDrives m.history).map
      (fun d => (d, driveSeries m.history d)) }

/-- Twelve hours as `time.Duration` nanoseconds (`12*time.Hour`). -/
def twelveHours : Int := 43200000000000

/-- Human-readable timestamp label,
Go `snapshot.Timestamp.Format("02.01 15:04")`; the library formatting
is modelled by the decimal rendering of the instant (always
nonempty, so a labelled point is never blank). -/
def timeLabelFmt (t : Nat) : String := Nat.repr t

/-- Point/label loop of Go `renderChartView`: `n` is the total number
of snapshots, `i` the index of the snapshot at the head of the
remaining list, `lastTime` the timestamp of the previously labelled
point (the zero time before any label).  For every snapshot containing
the selected drive one gigabyte point is appended, together with a
timestamp label when `i == 0 || i == n-1 ||
snapshot.Timestamp.Sub(lastTime) > 12*time.Hour`, and a blank label
otherwise. -/
def chartLoop (selectedDrive : String) (n : Nat) :
    Nat → Int → List Snapshot → List ℚ × List String
  | _, _, [] => ([], [])
  | i, lastTime, s :: rest =>
    match findDisk selectedDrive s.disks with
    | none => chartLoop selectedDrive n (i + 1) lastTime rest
    | some d =>
      if i = 0 ∨ i = n - 1 ∨ (s.timestamp : Int) - lastTime > twelveHours then
        let p := chartLoop selectedDrive n (i + 1) (s.timestamp : Int) rest
        (freeGB d :: p.1, timeLabelFmt s.timestamp :: p.2)
      else
        let p := chartLoop selectedDrive n (i + 1) lastTime rest
        (freeGB d :: p.1, "" :: p.2)

/-- Points and labels of `renderChartView` for the selected drive. -/
def chartPoints (h : HistoryData) (selectedDrive : String) :
    List ℚ × List String :=
  chartLoop selectedDrive h.snapshots.length 0 0 h.snapshots

/-- Summary statistics printed by `renderChartView`. -/
structure ChartStats where
  statMin : ℚ
  statMax : ℚ
  statAvg : ℚ
  statRange : ℚ
  deriving DecidableEq

/-- Stats block of `renderChartView`: defined only for a nonempty
series; min and max fold from `dataPoints[0]`, the average is the
arithmetic mean, the range is `max - min`. -/
def statsOf : List ℚ → Option ChartStats
  | [] => none
  | v :: vs =>
    let mn := (v :: vs).foldl min v
    let mx := (v :: vs).foldl max v
    let avg := (v :: vs).foldl (· + ·) 0 / ((v :: vs).length : ℚ)
    some { statMin := mn, statMax := mx, statAvg := avg,
           statRange := mx - mn }

/-- Observable outcome of Go `renderChartView`: either the
needs-more-history message (fewer than two snapshots) or the chart
data (points, label track and, when the series is nonempty, stats). -/
inductive ChartView
  | insufficient (msg : String)
  | chart (points : List ℚ) (labels : List String) (stats : Option ChartStats)
  deriving DecidableEq

/-- Data path of Go `renderChartView` for a selected drive. -/
def renderChartView (h : HistoryData) (selectedDrive : String) : ChartView :=
  if h.snapshots.length < 2 then
    .insufficient
      "Not enough data for a graph yet.\nRun the program a few times to build history.\n"
  else
    let p := chartPoints h selectedDrive
    .chart p.1 p.2 (statsOf p.1)

/-! ## Persisted history file: `encoding/json` serialization

`saveHistory` calls `json.MarshalIndent(history, "", "  ")` and
`loadHistory` calls `json.Unmarshal`.  The printer below reproduces
`MarshalIndent`'s output for the three struct types byte for byte
(struct-order keys, `": "` separators, two-space indentation, `[]` for
empty slices, string escaping with the encoder's HTML-escape set), and
the parser reproduces `Unmarshal` on that grammar (whitespace
tolerated between tokens). -/

/-- Lowercase hexadecimal digit, as the JSON encoder's `\u00xx`
escapes use. -/
def hexDigit (n : Nat) : Char :=
  if n < 10 then Char.ofNat (48 + n) else Char.ofNat (87 + n)

/-- Per-character escaping of the JSON encoder (`encoding/json` with
its default HTML escaping): `"` `\` and the control characters are
escaped, `\n` `\r` `\t` specially, other controls as `\u00xx`, the
HTML characters `<` `>` `&` as `<` `>` `&`, and
U+2028/U+2029 as ` `/` `; everything else is copied. -/
def escapeChar (c : Char) : List Char :=
  if c = '"' then ['\\', '"']
  else if c = '\\' then ['\\', '\\']
  else if c = '\n' then ['\\', 'n']
  else if c = '\r' then ['\\', 'r']
  else if c = '\t' then ['\\', 't']
  else if c.toNat < 32 then
    ['\\', 'u', '0', '0', hexDigit (c.toNat / 16), hexDigit (c.toNat % 16)]
  else if c = '<' then ['\\', 'u', '0', '0', '3', 'c']
  else if c = '>' then ['\\', 'u', '0', '0', '3', 'e']
  else if c = '&' then ['\\', 'u', '0', '0', '2', '6']
  else if c.toNat = 8232 then ['\\', 'u', '2', '0', '2', '8']
  else if c.toNat = 8233 then ['\\', 'u', '2', '0', '2', '9']
  else [c]

/-- Escape a whole character list. -/
def escapeList : List Char → List Char
  | [] => []
  | c :: rest => escapeChar c ++ escapeList rest

/-- A JSON string literal. -/
def stringLit (s : String) : List Char := '"' :: (escapeList s.data ++ ['"'])

/-- Decimal digit character. -/
def digitChar (n : Nat) : Char := Char.ofNat (48 + n)

/-- Decimal printing of a natural number, structural on a fuel
argument (any fuel above `n` suffices). -/
def printNatAux : Nat → Nat → List Char
  | 0, _ => []
  | fuel + 1, n =>
    if n < 10 then [digitChar n]
    else printNatAux fuel (n / 10) ++ [digitChar (n % 10)]

/-- Decimal printing of a natural number, as the JSON encoder renders
a `uint64`. -/
def printNat (n : Nat) : List Char := printNatAux (n + 1) n

/-- Indentation at nesting depth `k` for `MarshalIndent(_, "", "  ")`. -/
def jsonInd (k : Nat) : List Char := List.replicate (2 * k) ' '

/-- An object key with its `": "` separator, e.g. `"drive": `. -/
def keyPart (name : String) : List Char :=
  '"' :: (name.data ++ ['"', ':', ' '])

/-- Indented array elements joined by `",\n"`. -/
def joinInd (k : Nat) : List (List Char) → List Char
  | [] => []
  | [p] => jsonInd k ++ p
  | p :: ps => jsonInd k ++ p ++ [',', '\n'] ++ joinInd k ps

/-- A JSON array at depth `k`: `[]` when empty, otherwise one
element per line at depth `k + 1` with the closing bracket back at
depth `k`. -/
def printArr (k : Nat) : List (List Char) → List Char
  | [] => ['[', ']']
  | ps => ['[', '\n'] ++ joinInd (k + 1) ps ++ ['\n'] ++ jsonInd k ++ [']']

/-- One `DiskInfo` object at depth `k` (fields in Go struct order,
matching the stable JSON tags). -/
def printDisk (k : Nat) (d : DiskInfo) : List Char :=
  ['{', '\n'] ++ jsonInd (k + 1) ++ keyPart "drive" ++ stringLit d.drive
    ++ [',', '\n'] ++ jsonInd (k + 1) ++ keyPart "total_space"
    ++ printNat d.total_space
    ++ [',', '\n'] ++ jsonInd (k + 1) ++ keyPart "free_space"
    ++ printNat d.free_space
    ++ [',', '\n'] ++ jsonInd (k + 1) ++ keyPart "used_space"
    ++ printNat d.used_space
    ++ ['\n'] ++ jsonInd k ++ ['}']

/-- One `Snapshot` object at depth `k`: the `timestamp` string (the
serialized capture instant) and the `disks` array. -/
def printSnapshot (k : Nat) (s : Snapshot) : List Char :=
  ['{', '\n'] ++ jsonInd (k + 1) ++ keyPart "timestamp"
    ++ ('"' :: (printNat s.timestamp ++ ['"']))
    ++ [',', '\n'] ++ jsonInd (k + 1) ++ keyPart "disks"
    ++ printArr (k + 1) (s.disks.map (printDisk (k + 2)))
    ++ ['\n'] ++ jsonInd k ++ ['}']

/-- The full serialized `HistoryData` document, byte for byte the
output of `json.MarshalIndent(history, "", "  ")`. -/
def marshalHistory (h : HistoryData) : String :=
  String.mk (['{', '\n'] ++ jsonInd 1 ++ keyPart "snapshots"
    ++ printArr 1 (h.snapshots.map (printSnapshot 2))
    ++ ['\n', '}'])

/-- JSON insignificant whitespace. -/
def isWs (c : Char) : Bool := c = ' ' ∨ c = '\n' ∨ c = '\t' ∨ c = '\r'

/-- Skip insignificant whitespace before a token. -/
def skipWs : List Char → List Char
  | [] => []
  | c :: rest => if isWs c then skipWs rest else c :: rest

/-- Consume one expected token character, skipping leading
whitespace. -/
def expectTok (c : Char) (input : List Char) : Option (List Char) :=
  match skipWs input with
  | [] => none
  | x :: rest => if x = c then some rest else none

/-- Consume an exact literal character sequence (no whitespace
skipping). -/
def expectChars : List Char → List Char → Option (List Char)
  | [], input => some input
  | c :: cs, input =>
    match input with
    | [] => none
    | x :: rest => if x = c then expectChars cs rest else none

/-- Consume an object key and its colon: `"name":`. -/
def parseKey (name : String) (input : List Char) : Option (List Char) := do
  let i ← expectTok '"' input
  let i ← expectChars name.data i
  let i ← expectChars ['"'] i
  expectTok ':' i

/-- Digit test. -/
def isDigitCh (c : Char) : Bool := 48 ≤ c.toNat ∧ c.toNat ≤ 57

/-- Value of a digit character. -/
def digitVal (c : Char) : Nat := c.toNat - 48

/-- Consume a maximal run of digits, accumulating their value. -/
def parseDigitsAux : Nat → List Char → Nat × List Char
  | acc, [] => (acc, [])
  | acc, c :: rest =>
    if isDigitCh c then parseDigitsAux (acc * 10 + digitVal c) rest
    else (acc, c :: rest)

/-- Parse a natural number literal (at least one digit). -/
def parseNatLit : List Char → Option (Nat × List Char)
  | [] => none
  | c :: rest =>
    if isDigitCh c then some (parseDigitsAux (digitVal c) rest) else none

/-- Parse a natural number token, skipping leading whitespace. -/
def parseNatTok (input : List Char) : Option (Nat × List Char) :=
  parseNatLit (skipWs input)

/-- Hexadecimal digit value. -/
def parseHex (c : Char) : Option Nat :=
  if 48 ≤ c.toNat ∧ c.toNat ≤ 57 then some (c.toNat - 48)
  else if 97 ≤ c.toNat ∧ c.toNat ≤ 102 then some (c.toNat - 87)
  else if 65 ≤ c.toNat ∧ c.toNat ≤ 70 then some (c.toNat - 55)
  else none

/-- Parse the body of a JSON string literal after its opening quote,
decoding the decoder's escapes, up to and including the closing
quote. -/
def parseStringBody : List Char → Option (List Char × List Char)
  | [] => none
  | c :: rest =>
    if c = '"' then some ([], rest)
    else if c = '\\' then
      match rest with
      | [] => none
      | e :: rest2 =>
        if e = '"' then
          (parseStringBody rest2).map (fun p => ('"' :: p.1, p.2))
        else if e = '\\' then
          (parseStringBody rest2).map (fun p => ('\\' :: p.1, p.2))
        else if e = 'n' then
          (parseStringBody rest2).map (fun p => ('\n' :: p.1, p.2))
        else if e = 'r' then
          (parseStringBody rest2).map (fun p => ('\r' :: p.1, p.2))
        else if e = 't' then
          (parseStringBody rest2).map (fun p => ('\t' :: p.1, p.2))
        else if e = 'u' then
          match rest2 with
          | h1 :: h2 :: h3 :: h4 :: rest3 =>
            match parseHex h1, parseHex h2, parseHex h3, parseHex h4 with
            | some a, some b, some c2, some d =>
              (parseStringBody rest3).map
                (fun p => (Char.ofNat (4096 * a + 256 * b + 16 * c2 + d) :: p.1, p.2))
            | _, _, _, _ => none
          | _ => none
        else none
    else (parseStringBody rest).map (fun p => (c :: p.1, p.2))

/-- Parse a JSON string token (opening quote after whitespace). -/
def parseStringTok (input : List Char) : Option (String × List Char) := do
  let i ← expectTok '"' input
  let p ← parseStringBody i
  return (String.mk p.1, p.2)

/-- Parse one `DiskInfo` object. -/
def parseDisk (input : List Char) : Option (DiskInfo × List Char) := do
  let i ← expectTok '{' input
  let i ← parseKey "drive" i
  let pd ← parseStringTok i
  let i ← expectTok ',' pd.2
  let i ← parseKey "total_space" i
  let pt ← parseNatTok i
  let i ← expectTok ',' pt.2
  let i ← parseKey "free_space" i
  let pf ← parseNatTok i
  let i ← expectTok ',' pf.2
  let i ← parseKey "used_space" i
  let pu ← parseNatTok i
  let i ← expectTok '}' pu.2
  return ({ drive := pd.1, total_space := pt.1, free_space := pf.1,
            used_space := pu.1 }, i)

/-- Parse the elements of a nonempty `DiskInfo` array (after `[`),
one element already known to follow; structural on a fuel bound on the
element count. -/
def parseDiskListAux : Nat → List Char → Option (List DiskInfo × List Char)
  | 0, _ => none
  | fuel + 1, input => do
    let p ← parseDisk input
    match skipWs p.2 with
    | ',' :: rest => do
      let q ← parseDiskListAux fuel rest
      return (p.1 :: q.1, q.2)
    | ']' :: rest => return ([p.1], rest)
    | _ => none

/-- Parse a `DiskInfo` array (`[]` or a nonempty element list). -/
def parseDiskArr (input : List Char) : Option (List DiskInfo × List Char) := do
  let i ← expectTok '[' input
  match skipWs i with
  | ']' :: rest => return ([], rest)
  | i2 => parseDiskListAux (i2.length + 1) i2

/-- Parse one `Snapshot` object: the quoted serialized instant, then
the `disks` array. -/
def parseSnapshot (input : List Char) : Option (Snapshot × List Char) := do
  let i ← expectTok '{' input
  let i ← parseKey "timestamp" i
  let i ← expectTok '"' i
  let pt ← parseNatLit i
  let i ← expectChars ['"'] pt.2
  let i ← expectTok ',' i
  let i ← parseKey "disks" i
  let pd ← parseDiskArr i
  let i ← expectTok '}' pd.2
  return ({ timestamp := pt.1, disks := pd.1 }, i)

/-- Parse the elements of a nonempty `Snapshot` array. -/
def parseSnapshotListAux : Nat → List Char → Option (List Snapshot × List Char)
  | 0, _ => none
  | fuel + 1, input => do
    let p ← parseSnapshot input
    match skipWs p.2 with
    | ',' :: rest => do
      let q ← parseSnapshotListAux fuel rest
      return (p.1 :: q.1, q.2)
    | ']' :: rest => return ([p.1], rest)
    | _ => none

/-- Parse a `Snapshot` array. -/
def parseSnapshotArr (input : List Char) : Option (List Snapshot × List Char) := do
  let i ← expectTok '[' input
  match skipWs i with
  | ']' :: rest => return ([], rest)
  | i2 => parseSnapshotListAux (i2.length + 1) i2

/-- Parse a whole persisted history document; trailing whitespace is
allowed, anything else rejects (`json.Unmarshal` consumes the entire
input). -/
def parseHistory (s : String) : Option HistoryData := do
  let i ← expectTok '{' s.data
  let i ← parseKey "snapshots" i
  let p ← parseSnapshotArr i
  let i ← expectTok '}' p.2
  match skipWs i with
  | [] => return { snapshots := p.1 }
  | _ => none

/-- Error outcome of `loadHistory` on a present file: `json.Unmarshal`
failed. -/
inductive LoadError
  | malformed
  deriving DecidableEq

/-- Go `loadHistory`: an absent file (`os.IsNotExist`) is not an error
and yields the empty history; unparseable content is reported as an
error. -/
def loadHistory : Option String → Except LoadError HistoryData
  | none => .ok { snapshots := [] }
  | some content =>
    match parseHistory content with
    | some h => .ok h
    | none => .error .malformed

/-- Go `saveHistory`: the content `os.WriteFile` writes over the
history file — the full serialized history, not a delta. -/
def saveHistory (h : HistoryData) : String := marshalHistory h

/-- Content left behind when the single in-place `os.WriteFile` of
`saveHistory` is interrupted after `k` bytes: the file was truncated
and holds a prefix of the new content. -/
def writeInterrupted (content : String) (k : Nat) : String := content.take k

/-- Go's `history.Snapshots = append(history.Snapshots, snapshot)`. -/
def appendSnapshot (h : HistoryData) (s : Snapshot) : HistoryData :=
  { snapshots := h.snapshots ++ [s] }

/-- Go `collectAndSave` (CLI capture cycle): probe all drives, fail
with `"no drives found"` on an empty result, otherwise load, append
and save, returning the new file content. -/
def collectAndSave (drives : List String)
    (probe : String → Option (Nat × Nat)) (now : Nat)
    (file : Option String) : Except String String :=
  let disks := getAllDisksInfo drives probe
  if disks.isEmpty then .error "no drives found"
  else
    match loadHistory file with
    | .error _ => .error "load failed"
    | .ok history =>
      .ok (saveHistory (appendSnapshot history { timestamp := now, disks := disks }))

/-! ## Round trip of the serialized history

The parser inverts the printer: `parseHistory (marshalHistory h) = some h`
for every history, which is the load-after-persist fidelity the snapshot
store contract relies on. -/

-- skipWs basics
theorem skipWs_sp (r : List Char) : skipWs (' ' :: r) = skipWs r := rfl
theorem skipWs_nl (r : List Char) : skipWs ('\n' :: r) = skipWs r := rfl

theorem skipWs_replicate_sp (m : Nat) (r : List Char) :
    skipWs (List.replicate m ' ' ++ r) = skipWs r := by
  induction m with
  | zero => rfl
  | succ k ih => simpa [List.replicate_succ] using ih

theorem skipWs_jsonInd (k : Nat) (r : List Char) :
    skipWs (jsonInd k ++ r) = skipWs r := skipWs_replicate_sp _ r

theorem expectTok_nl (c : Char) (r : List Char) :
    expectTok c ('\n' :: r) = expectTok c r := rfl
theorem expectTok_sp (c : Char) (r : List Char) :
    expectTok c (' ' :: r) = expectTok c r := rfl
theorem expectTok_jsonInd (c : Char) (k : Nat) (r : List Char) :
    expectTok c (jsonInd k ++ r) = expectTok c r := by
  simp [expectTok, skipWs_jsonInd]

theorem expectTok_lbrace (r : List Char) : expectTok '{' ('{' :: r) = some r := rfl
theorem expectTok_quote (r : List Char) : expectTok '"' ('"' :: r) = some r := rfl
theorem expectTok_colon_self (r : List Char) : expectTok ':' (':' :: r) = some r := rfl

theorem expectChars_self (cs rest : List Char) :
    expectChars cs (cs ++ rest) = some rest := by
  induction cs with
  | nil => rfl
  | cons c cs ih => simp [expectChars, ih]

theorem parseKey_print (name : String) (rest : List Char) :
    parseKey name (keyPart name ++ rest) = some (' ' :: rest) := by
  simp [parseKey, keyPart, expectTok_quote, expectChars_self, expectChars]
  rfl

-- digit characters
theorem toNat_digitChar (v : Nat) (h : v < 10) : (digitChar v).toNat = 48 + v := by
  interval_cases v <;> decide

theorem isDigitCh_digitChar (v : Nat) (h : v < 10) : isDigitCh (digitChar v) = true := by
  interval_cases v <;> decide

theorem digitVal_digitChar (v : Nat) (h : v < 10) : digitVal (digitChar v) = v := by
  interval_cases v <;> decide

-- printNat fuel irrelevance
theorem printNatAux_fuel (f1 : Nat) : ∀ f2 n, n < f1 → n < f2 →
    printNatAux f1 n = printNatAux f2 n := by
  induction f1 with
  | zero => intro f2 n h1; omega
  | succ m ih =>
    intro f2 n h1 h2
    match f2, h2 with
    | f + 1, _ =>
      simp only [printNatAux]
      by_cases hn : n < 10
      · simp [hn]
      · have hd : n / 10 < n := Nat.div_lt_self (by omega) (by norm_num)
        simp only [hn, if_false]
        rw [ih f (n / 10) (by omega) (by omega)]

theorem printNat_eq_step (n : Nat) :
    printNat n = if n < 10 then [digitChar n]
      else printNat (n / 10) ++ [digitChar (n % 10)] := by
  by_cases hn : n < 10
  · simp [printNat, printNatAux, hn]
  · rw [if_neg hn]
    show printNatAux (n + 1) n = printNatAux (n / 10 + 1) (n / 10) ++ [digitChar (n % 10)]
    simp only [printNatAux]
    rw [if_neg hn]
    congr 1
    exact printNatAux_fuel n (n / 10 + 1) (n / 10)
      (Nat.div_lt_self (by omega) (by norm_num)) (by omega)

theorem parseDigitsAux_printNat (n : Nat) : ∀ acc rest,
    parseDigitsAux acc (printNat n ++ rest) =
      parseDigitsAux (acc * 10 ^ (printNat n).length + n) rest := by
  induction n using Nat.strong_induction_on with
  | _ n ih =>
    intro acc rest
    rw [printNat_eq_step n]
    by_cases hn : n < 10
    · simp only [hn, if_true, List.cons_append, List.nil_append, List.length_cons,
        List.length_nil, parseDigitsAux]
      rw [isDigitCh_digitChar n hn, digitVal_digitChar n hn]
      simp
    · have hd : n / 10 < n := Nat.div_lt_self (by omega) (by norm_num)
      have h10 : n % 10 < 10 := Nat.mod_lt _ (by norm_num)
      rw [if_neg hn, List.append_assoc]
      rw [ih (n / 10) hd acc ([digitChar (n % 10)] ++ rest)]
      simp only [List.cons_append, List.nil_append, parseDigitsAux]
      rw [isDigitCh_digitChar _ h10, digitVal_digitChar _ h10]
      simp only [if_true, List.length_append, List.length_cons, List.length_nil]
      congr 1
      have h1 : n / 10 * 10 + n % 10 = n := by omega
      calc (acc * 10 ^ (printNat (n / 10)).length + n / 10) * 10 + n % 10
          = acc * (10 ^ (printNat (n / 10)).length * 10)
            + (n / 10 * 10 + n % 10) := by ring
        _ = acc * 10 ^ ((printNat (n / 10)).length + 1) + n := by
            rw [h1, pow_succ]

def headNotDigit : List Char → Prop
  | [] => True
  | c :: _ => isDigitCh c = false

theorem printNat_cons (n : Nat) : ∃ c cs, printNat n = c :: cs ∧ isDigitCh c = true := by
  induction n using Nat.strong_induction_on with
  | _ n ih =>
    rw [printNat_eq_step n]
    by_cases hn : n < 10
    · exact ⟨digitChar n, [], by simp [hn], isDigitCh_digitChar n hn⟩
    · have hd : n / 10 < n := Nat.div_lt_self (by omega) (by norm_num)
      obtain ⟨c, cs, hcs, hdig⟩ := ih (n / 10) hd
      exact ⟨c, cs ++ [digitChar (n % 10)], by simp [hn, hcs], hdig⟩

theorem parseDigitsAux_stop (n : Nat) (rest : List Char) (h : headNotDigit rest) :
    parseDigitsAux n rest = (n, rest) := by
  match rest, h with
  | [], _ => rfl
  | c :: r, h => simp only [parseDigitsAux, headNotDigit] at *; simp [h]

theorem parseNatLit_printNat (n : Nat) (rest : List Char) (h : headNotDigit rest) :
    parseNatLit (printNat n ++ rest) = some (n, rest) := by
  obtain ⟨c, cs, hcs, hdig⟩ := printNat_cons n
  have key : parseDigitsAux 0 (printNat n ++ rest) = (n, rest) := by
    rw [parseDigitsAux_printNat n 0 rest]
    simp only [Nat.zero_mul, Nat.zero_add]
    exact parseDigitsAux_stop n rest h
  rw [hcs] at key ⊢
  simp only [List.cons_append] at key ⊢
  simp only [parseNatLit, hdig, if_true]
  rw [show parseDigitsAux 0 (c :: (cs ++ rest)) =
      parseDigitsAux (0 * 10 + digitVal c) (cs ++ rest) by
    simp [parseDigitsAux, hdig]] at key
  simp only [Nat.zero_mul, Nat.zero_add] at key
  rw [key]

-- parseStringBody step lemmas
theorem psb_quote (rest : List Char) : parseStringBody ('"' :: rest) = some ([], rest) := by
  rw [parseStringBody.eq_def]; simp

theorem psb_esc_quote (rest : List Char) : parseStringBody ('\\' :: '"' :: rest) =
    (parseStringBody rest).map (fun p => ('"' :: p.1, p.2)) := by
  rw [parseStringBody.eq_def]; simp

theorem psb_esc_back (rest : List Char) : parseStringBody ('\\' :: '\\' :: rest) =
    (parseStringBody rest).map (fun p => ('\\' :: p.1, p.2)) := by
  rw [parseStringBody.eq_def]; simp

theorem psb_esc_n (rest : List Char) : parseStringBody ('\\' :: 'n' :: rest) =
    (parseStringBody rest).map (fun p => ('\n' :: p.1, p.2)) := by
  rw [parseStringBody.eq_def]; simp

theorem psb_esc_r (rest : List Char) : parseStringBody ('\\' :: 'r' :: rest) =
    (parseStringBody rest).map (fun p => ('\r' :: p.1, p.2)) := by
  rw [parseStringBody.eq_def]; simp

theorem psb_esc_t (rest : List Char) : parseStringBody ('\\' :: 't' :: rest) =
    (parseStringBody rest).map (fun p => ('\t' :: p.1, p.2)) := by
  rw [parseStringBody.eq_def]; simp

theorem psb_esc_u (h1 h2 h3 h4 : Char) (a b c2 d : Nat) (rest : List Char)
    (e1 : parseHex h1 = some a) (e2 : parseHex h2 = some b)
    (e3 : parseHex h3 = some c2) (e4 : parseHex h4 = some d) :
    parseStringBody ('\\' :: 'u' :: h1 :: h2 :: h3 :: h4 :: rest) =
    (parseStringBody rest).map
      (fun p => (Char.ofNat (4096 * a + 256 * b + 16 * c2 + d) :: p.1, p.2)) := by
  rw [parseStringBody.eq_def]; simp [e1, e2, e3, e4]

theorem psb_raw (c : Char) (rest : List Char) (hq : ¬c = '"') (hb : ¬c = '\\') :
    parseStringBody (c :: rest) = (parseStringBody rest).map (fun p => (c :: p.1, p.2)) := by
  rw [parseStringBody.eq_def]; simp [hq, hb]

theorem parseHex_hexDigit (v : Nat) (h : v < 16) : parseHex (hexDigit v) = some v := by
  interval_cases v <;> decide

theorem parseStringBody_escape (l : List Char) : ∀ rest,
    parseStringBody (escapeList l ++ ('"' :: rest)) = some (l, rest) := by
  induction l with
  | nil => intro rest; exact psb_quote rest
  | cons c l ih =>
    intro rest
    show parseStringBody ((escapeChar c ++ escapeList l) ++ ('"' :: rest)) = _
    rw [List.append_assoc]
    by_cases h1 : c = '"'
    · subst h1
      rw [show escapeChar '"' = ['\\', '"'] from by decide]
      simp only [List.cons_append, List.nil_append]
      rw [psb_esc_quote, ih rest]
      rfl
    · by_cases h2 : c = '\\'
      · subst h2
        rw [show escapeChar '\\' = ['\\', '\\'] from by decide]
        simp only [List.cons_append, List.nil_append]
        rw [psb_esc_back, ih rest]
        rfl
      · by_cases h3 : c = '\n'
        · subst h3
          rw [show escapeChar '\n' = ['\\', 'n'] from by decide]
          simp only [List.cons_append, List.nil_append]
          rw [psb_esc_n, ih rest]
          rfl
        · by_cases h4 : c = '\r'
          · subst h4
            rw [show escapeChar '\r' = ['\\', 'r'] from by decide]
            simp only [List.cons_append, List.nil_append]
            rw [psb_esc_r, ih rest]
            rfl
          · by_cases h5 : c = '\t'
            · subst h5
              rw [show escapeChar '\t' = ['\\', 't'] from by decide]
              simp only [List.cons_append, List.nil_append]
              rw [psb_esc_t, ih rest]
              rfl
            · by_cases h6 : c.toNat < 32
              · have he : escapeChar c =
                    ['\\', 'u', '0', '0', hexDigit (c.toNat / 16), hexDigit (c.toNat % 16)] := by
                  simp [escapeChar, h1, h2, h3, h4, h5, h6]
                rw [he]
                have hhi : c.toNat / 16 < 16 := by omega
                have hlo : c.toNat % 16 < 16 := by omega
                simp only [List.cons_append, List.nil_append]
                rw [psb_esc_u '0' '0' _ _ 0 0 (c.toNat / 16) (c.toNat % 16) _
                  (by decide) (by decide)
                  (parseHex_hexDigit _ hhi) (parseHex_hexDigit _ hlo)]
                rw [ih rest]
                have hchar : 4096 * 0 + 256 * 0 + 16 * (c.toNat / 16) + c.toNat % 16
                    = c.toNat := by omega
                rw [hchar, Char.ofNat_toNat]
                rfl
              · by_cases h7 : c = '<'
                · subst h7
                  rw [show escapeChar '<' = ['\\', 'u', '0', '0', '3', 'c'] from by decide]
                  simp only [List.cons_append, List.nil_append]
                  rw [psb_esc_u '0' '0' '3' 'c' 0 0 3 12 _ (by decide) (by decide)
                    (by decide) (by decide)]
                  rw [ih rest]
                  rfl
                · by_cases h8 : c = '>'
                  · subst h8
                    rw [show escapeChar '>' = ['\\', 'u', '0', '0', '3', 'e'] from by decide]
                    simp only [List.cons_append, List.nil_append]
                    rw [psb_esc_u '0' '0' '3' 'e' 0 0 3 14 _ (by decide) (by decide)
                      (by decide) (by decide)]
                    rw [ih rest]
                    rfl
                  · by_cases h9 : c = '&'
                    · subst h9
                      rw [show escapeChar '&' = ['\\', 'u', '0', '0', '2', '6'] from by decide]
                      simp only [List.cons_append, List.nil_append]
                      rw [psb_esc_u '0' '0' '2' '6' 0 0 2 6 _ (by decide) (by decide)
                        (by decide) (by decide)]
                      rw [ih rest]
                      rfl
                    · by_cases h10 : c.toNat = 8232
                      · have he : escapeChar c = ['\\', 'u', '2', '0', '2', '8'] := by
                          simp [escapeChar, h1, h2, h3, h4, h5, h6, h7, h8, h9, h10]
                        rw [he]
                        simp only [List.cons_append, List.nil_append]
                        rw [psb_esc_u '2' '0' '2' '8' 2 0 2 8 _ (by decide) (by decide)
                          (by decide) (by decide)]
                        rw [ih rest]
                        have hc : (4096 * 2 + 256 * 0 + 16 * 2 + 8) = c.toNat := by omega
                        rw [hc, Char.ofNat_toNat]
                        rfl
                      · by_cases h11 : c.toNat = 8233
                        · have he : escapeChar c = ['\\', 'u', '2', '0', '2', '9'] := by
                            simp [escapeChar, h1, h2, h3, h4, h5, h6, h7, h8, h9, h10, h11]
                          rw [he]
                          simp only [List.cons_append, List.nil_append]
                          rw [psb_esc_u '2' '0' '2' '9' 2 0 2 9 _ (by decide) (by decide)
                            (by decide) (by decide)]
                          rw [ih rest]
                          have hc : (4096 * 2 + 256 * 0 + 16 * 2 + 9) = c.toNat := by omega
                          rw [hc, Char.ofNat_toNat]
                          rfl
                        · have he : escapeChar c = [c] := by
                            simp [escapeChar, h1, h2, h3, h4, h5, h6, h7, h8, h9, h10, h11]
                          rw [he]
                          simp only [List.cons_append, List.nil_append]
                          rw [psb_raw c _ h1 h2, ih rest]
                          rfl

theorem parseStringTok_print (s : String) (rest : List Char) :
    parseStringTok (stringLit s ++ rest) = some (s, rest) := by
  simp only [parseStringTok, stringLit, List.cons_append, List.append_assoc,
    List.nil_append, expectTok_quote, parseStringBody_escape, Option.bind_eq_bind,
    Option.some_bind]
  rfl

theorem expectTok_comma (r : List Char) : expectTok ',' (',' :: r) = some r := rfl
theorem expectTok_rbrace (r : List Char) : expectTok '}' ('}' :: r) = some r := rfl
theorem expectTok_lbracket (r : List Char) : expectTok '[' ('[' :: r) = some r := rfl
theorem expectTok_rbracket (r : List Char) : expectTok ']' (']' :: r) = some r := rfl

theorem isWs_false_of_digit (c : Char) (h : isDigitCh c = true) : isWs c = false := by
  unfold isWs
  apply decide_eq_false
  rintro (rfl | rfl | rfl | rfl) <;> simp [isDigitCh] at h

theorem skipWs_printNat (n : Nat) (r : List Char) :
    skipWs (printNat n ++ r) = printNat n ++ r := by
  obtain ⟨c, cs, hcs, hdig⟩ := printNat_cons n
  rw [hcs]
  simp only [List.cons_append, skipWs, isWs_false_of_digit c hdig]
  simp

theorem parseKey_nl (name : String) (r : List Char) :
    parseKey name ('\n' :: r) = parseKey name r := rfl
theorem parseKey_sp (name : String) (r : List Char) :
    parseKey name (' ' :: r) = parseKey name r := rfl
theorem parseKey_jsonInd (name : String) (k : Nat) (r : List Char) :
    parseKey name (jsonInd k ++ r) = parseKey name r := by
  simp only [parseKey, expectTok_jsonInd]

theorem parseStringTok_sp (r : List Char) :
    parseStringTok (' ' :: r) = parseStringTok r := rfl

theorem parseNatTok_sp (r : List Char) : parseNatTok (' ' :: r) = parseNatTok r := rfl

theorem parseNatTok_print (n : Nat) (rest : List Char) (h : headNotDigit rest) :
    parseNatTok (printNat n ++ rest) = some (n, rest) := by
  unfold parseNatTok
  rw [skipWs_printNat, parseNatLit_printNat n rest h]

theorem parseDisk_print (k : Nat) (d : DiskInfo) (rest : List Char) :
    parseDisk (printDisk k d ++ rest) = some (d, rest) := by
  simp only [parseDisk, printDisk, List.append_assoc, List.cons_append, List.nil_append]
  rw [expectTok_lbrace]
  simp only [Option.bind_eq_bind, Option.some_bind]
  rw [parseKey_nl, parseKey_jsonInd, parseKey_print]
  simp only [Option.some_bind]
  rw [parseStringTok_sp, parseStringTok_print]
  simp only [Option.some_bind]
  rw [expectTok_comma]
  simp only [Option.some_bind]
  rw [parseKey_nl, parseKey_jsonInd, parseKey_print]
  simp only [Option.some_bind]
  rw [parseNatTok_sp, parseNatTok_print _ _ (by exact (by decide : isDigitCh ',' = false))]
  simp only [Option.some_bind]
  rw [expectTok_comma]
  simp only [Option.some_bind]
  rw [parseKey_nl, parseKey_jsonInd, parseKey_print]
  simp only [Option.some_bind]
  rw [parseNatTok_sp, parseNatTok_print _ _ (by exact (by decide : isDigitCh ',' = false))]
  simp only [Option.some_bind]
  rw [expectTok_comma]
  simp only [Option.some_bind]
  rw [parseKey_nl, parseKey_jsonInd, parseKey_print]
  simp only [Option.some_bind]
  rw [parseNatTok_sp, parseNatTok_print _ _ (by exact (by decide : isDigitCh '\n' = false))]
  simp only [Option.some_bind]
  rw [expectTok_nl, expectTok_jsonInd, expectTok_rbrace]
  simp only [Option.some_bind]
  rfl

def diskTail (j k : Nat) : List DiskInfo → List Char → List Char
  | [], rest => '\n' :: (jsonInd k ++ (']' :: rest))
  | d2 :: ds2, rest =>
    ',' :: '\n' :: (jsonInd j ++ (printDisk j d2 ++ diskTail j k ds2 rest))

theorem joinInd_diskTail (j k : Nat) (d : DiskInfo) (ds : List DiskInfo)
    (rest : List Char) :
    joinInd j ((d :: ds).map (printDisk j)) ++ ('\n' :: (jsonInd k ++ (']' :: rest)))
      = jsonInd j ++ (printDisk j d ++ diskTail j k ds rest) := by
  induction ds generalizing d with
  | nil => simp [joinInd, diskTail]
  | cons d2 ds2 ih =>
    simp only [List.map, joinInd, diskTail]
    rw [show (joinInd j (printDisk j d2 :: ds2.map (printDisk j))) =
        joinInd j ((d2 :: ds2).map (printDisk j)) from by simp]
    simp only [List.append_assoc, List.cons_append, List.nil_append]
    rw [ih d2]

theorem parseDisk_nl (r : List Char) : parseDisk ('\n' :: r) = parseDisk r := rfl
theorem parseDisk_jsonInd (k : Nat) (r : List Char) :
    parseDisk (jsonInd k ++ r) = parseDisk r := by
  simp only [parseDisk, expectTok_jsonInd]

theorem parseDiskListAux_nl (fuel : Nat) (r : List Char) :
    parseDiskListAux fuel ('\n' :: r) = parseDiskListAux fuel r := by
  cases fuel with
  | zero => rfl
  | succ f => simp only [parseDiskListAux, parseDisk_nl]

theorem parseDiskListAux_jsonInd (fuel k : Nat) (r : List Char) :
    parseDiskListAux fuel (jsonInd k ++ r) = parseDiskListAux fuel r := by
  cases fuel with
  | zero => rfl
  | succ f => simp only [parseDiskListAux, parseDisk_jsonInd]

theorem skipWs_comma (r : List Char) : skipWs (',' :: r) = ',' :: r := rfl
theorem skipWs_rbracket (r : List Char) : skipWs (']' :: r) = ']' :: r := rfl

theorem parseDiskListAux_go (j k : Nat) : ∀ (ds : List DiskInfo) (d : DiskInfo)
    (fuel : Nat) (rest : List Char), ds.length < fuel →
    parseDiskListAux fuel (printDisk j d ++ diskTail j k ds rest)
      = some (d :: ds, rest) := by
  intro ds
  induction ds with
  | nil =>
    intro d fuel rest hf
    match fuel, hf with
    | f + 1, _ =>
      simp only [parseDiskListAux, parseDisk_print, Option.bind_eq_bind,
        Option.some_bind, diskTail]
      rw [skipWs_nl, skipWs_jsonInd, skipWs_rbracket]
      simp
  | cons d2 ds2 ih =>
    intro d fuel rest hf
    match fuel, hf with
    | f + 1, hf =>
      simp only [parseDiskListAux, parseDisk_print, Option.bind_eq_bind,
        Option.some_bind, diskTail]
      rw [skipWs_comma]
      simp only []
      show (parseDiskListAux f ('\n' :: (jsonInd j ++ (printDisk j d2 ++ diskTail j k ds2 rest)))).bind
        (fun a => pure (d :: a.1, a.2)) = some (d :: d2 :: ds2, rest)
      rw [parseDiskListAux_nl, parseDiskListAux_jsonInd]
      rw [ih d2 f rest (by simpa using Nat.lt_of_succ_lt_succ hf)]
      rfl

theorem skipWs_printDisk (j : Nat) (d : DiskInfo) (r : List Char) :
    skipWs (printDisk j d ++ r) = printDisk j d ++ r := by
  simp only [printDisk, List.cons_append]
  rfl

theorem diskTail_length (j k : Nat) (ds : List DiskInfo) (rest : List Char) :
    ds.length ≤ (diskTail j k ds rest).length := by
  induction ds with
  | nil => simp [diskTail]
  | cons d2 ds2 ih => simp [diskTail]; omega

theorem printArr_cons (k : Nat) (p : List Char) (ps : List (List Char)) :
    printArr k (p :: ps) =
      ['[', '\n'] ++ joinInd (k + 1) (p :: ps) ++ ['\n'] ++ jsonInd k ++ [']'] := rfl

theorem parseDiskArr_print (k : Nat) (ds : List DiskInfo) (rest : List Char) :
    parseDiskArr (printArr k (ds.map (printDisk (k + 1))) ++ rest) = some (ds, rest) := by
  cases ds with
  | nil =>
    show parseDiskArr (['[', ']'] ++ rest) = some ([], rest)
    simp only [List.cons_append, List.nil_append, parseDiskArr]
    rw [expectTok_lbracket]
    show (match skipWs (']' :: rest) with
      | ']' :: r => pure (([] : List DiskInfo), r)
      | i2 => parseDiskListAux (i2.length + 1) i2) = some ([], rest)
    rw [skipWs_rbracket]
    rfl
  | cons d ds' =>
    rw [List.map_cons, printArr_cons]
    simp only [List.append_assoc, List.cons_append, List.nil_append]
    rw [show joinInd (k + 1) (printDisk (k + 1) d :: ds'.map (printDisk (k + 1)))
          ++ ('\n' :: (jsonInd k ++ (']' :: rest)))
        = jsonInd (k + 1) ++ (printDisk (k + 1) d ++ diskTail (k + 1) k ds' rest) from by
      rw [← joinInd_diskTail k.succ k d ds' rest]
      simp]
    simp only [parseDiskArr]
    rw [expectTok_lbracket]
    simp only [Option.bind_eq_bind, Option.some_bind]
    rw [skipWs_nl, skipWs_jsonInd, skipWs_printDisk]
    split
    case _ r heq =>
      exfalso
      have := congrArg (fun l => l.headI) heq
      simp [printDisk] at this
    case _ i2 hne =>
      apply parseDiskListAux_go
      have hlen := diskTail_length (k + 1) k ds' rest
      simp only [List.length_append]
      omega

theorem parseDiskArr_sp (r : List Char) : parseDiskArr (' ' :: r) = parseDiskArr r := rfl

theorem parseSnapshot_print (k : Nat) (s : Snapshot) (rest : List Char) :
    parseSnapshot (printSnapshot k s ++ rest) = some (s, rest) := by
  simp only [parseSnapshot, printSnapshot, List.append_assoc, List.cons_append,
    List.nil_append]
  rw [expectTok_lbrace]
  simp only [Option.bind_eq_bind, Option.some_bind]
  rw [parseKey_nl, parseKey_jsonInd, parseKey_print]
  simp only [Option.some_bind]
  rw [expectTok_sp, expectTok_quote]
  simp only [Option.some_bind]
  rw [parseNatLit_printNat _ _ (by exact (by decide : isDigitCh '"' = false))]
  simp only [Option.some_bind]
  rw [show expectChars ['"'] ('"' :: (',' :: '\n' :: (jsonInd (k + 1)
      ++ (keyPart "disks" ++ (printArr (k + 1) (s.disks.map (printDisk (k + 2)))
      ++ ('\n' :: (jsonInd k ++ ('}' :: rest)))))))) =
    some ((',' :: '\n' :: (jsonInd (k + 1)
      ++ (keyPart "disks" ++ (printArr (k + 1) (s.disks.map (printDisk (k + 2)))
      ++ ('\n' :: (jsonInd k ++ ('}' :: rest)))))))) from by
    exact expectChars_self ['"'] _]
  simp only [Option.some_bind]
  rw [expectTok_comma]
  simp only [Option.some_bind]
  rw [parseKey_nl, parseKey_jsonInd, parseKey_print]
  simp only [Option.some_bind]
  rw [parseDiskArr_sp, parseDiskArr_print]
  simp only [Option.some_bind]
  rw [expectTok_nl, expectTok_jsonInd, expectTok_rbrace]
  simp only [Option.some_bind]
  rfl

def snapTail (j k : Nat) : List Snapshot → List Char → List Char
  | [], rest => '\n' :: (jsonInd k ++ (']' :: rest))
  | s2 :: ss2, rest =>
    ',' :: '\n' :: (jsonInd j ++ (printSnapshot j s2 ++ snapTail j k ss2 rest))

theorem joinInd_snapTail (j k : Nat) (s : Snapshot) (ss : List Snapshot)
    (rest : List Char) :
    joinInd j ((s :: ss).map (printSnapshot j)) ++ ('\n' :: (jsonInd k ++ (']' :: rest)))
      = jsonInd j ++ (printSnapshot j s ++ snapTail j k ss rest) := by
  induction ss generalizing s with
  | nil => simp [joinInd, snapTail]
  | cons s2 ss2 ih =>
    simp only [List.map, joinInd, snapTail]
    rw [show (joinInd j (printSnapshot j s2 :: ss2.map (printSnapshot j))) =
        joinInd j ((s2 :: ss2).map (printSnapshot j)) from by simp]
    simp only [List.append_assoc, List.cons_append, List.nil_append]
    rw [ih s2]

theorem parseSnapshot_nl (r : List Char) : parseSnapshot ('\n' :: r) = parseSnapshot r := rfl
theorem parseSnapshot_jsonInd (k : Nat) (r : List Char) :
    parseSnapshot (jsonInd k ++ r) = parseSnapshot r := by
  simp only [parseSnapshot, expectTok_jsonInd]

theorem parseSnapshotListAux_nl (fuel : Nat) (r : List Char) :
    parseSnapshotListAux fuel ('\n' :: r) = parseSnapshotListAux fuel r := by
  cases fuel with
  | zero => rfl
  | succ f => simp only [parseSnapshotListAux, parseSnapshot_nl]

theorem parseSnapshotListAux_jsonInd (fuel k : Nat) (r : List Char) :
    parseSnapshotListAux fuel (jsonInd k ++ r) = parseSnapshotListAux fuel r := by
  cases fuel with
  | zero => rfl
  | succ f => simp only [parseSnapshotListAux, parseSnapshot_jsonInd]

theorem parseSnapshotListAux_go (j k : Nat) : ∀ (ss : List Snapshot) (s : Snapshot)
    (fuel : Nat) (rest : List Char), ss.length < fuel →
    parseSnapshotListAux fuel (printSnapshot j s ++ snapTail j k ss rest)
      = some (s :: ss, rest) := by
  intro ss
  induction ss with
  | nil =>
    intro s fuel rest hf
    match fuel, hf with
    | f + 1, _ =>
      simp only [parseSnapshotListAux, parseSnapshot_print, Option.bind_eq_bind,
        Option.some_bind, snapTail]
      rw [skipWs_nl, skipWs_jsonInd, skipWs_rbracket]
      simp
  | cons s2 ss2 ih =>
    intro s fuel rest hf
    match fuel, hf with
    | f + 1, hf =>
      simp only [parseSnapshotListAux, parseSnapshot_print, Option.bind_eq_bind,
        Option.some_bind, snapTail]
      rw [skipWs_comma]
      show (parseSnapshotListAux f ('\n' :: (jsonInd j ++ (printSnapshot j s2 ++ snapTail j k ss2 rest)))).bind
        (fun a => pure (s :: a.1, a.2)) = some (s :: s2 :: ss2, rest)
      rw [parseSnapshotListAux_nl, parseSnapshotListAux_jsonInd]
      rw [ih s2 f rest (by simpa using Nat.lt_of_succ_lt_succ hf)]
      rfl

theorem skipWs_printSnapshot (j : Nat) (s : Snapshot) (r : List Char) :
    skipWs (printSnapshot j s ++ r) = printSnapshot j s ++ r := by
  simp only [printSnapshot, List.cons_append]
  rfl

theorem snapTail_length (j k : Nat) (ss : List Snapshot) (rest : List Char) :
    ss.length ≤ (snapTail j k ss rest).length := by
  induction ss with
  | nil => simp [snapTail]
  | cons s2 ss2 ih => simp [snapTail]; omega

theorem parseSnapshotArr_print (k : Nat) (ss : List Snapshot) (rest : List Char) :
    parseSnapshotArr (printArr k (ss.map (printSnapshot (k + 1))) ++ rest)
      = some (ss, rest) := by
  cases ss with
  | nil =>
    show parseSnapshotArr (['[', ']'] ++ rest) = some ([], rest)
    simp only [List.cons_append, List.nil_append, parseSnapshotArr]
    rw [expectTok_lbracket]
    show (match skipWs (']' :: rest) with
      | ']' :: r => pure (([] : List Snapshot), r)
      | i2 => parseSnapshotListAux (i2.length + 1) i2) = some ([], rest)
    rw [skipWs_rbracket]
    rfl
  | cons s ss' =>
    rw [List.map_cons, printArr_cons]
    simp only [List.append_assoc, List.cons_append, List.nil_append]
    rw [show joinInd (k + 1) (printSnapshot (k + 1) s :: ss'.map (printSnapshot (k + 1)))
          ++ ('\n' :: (jsonInd k ++ (']' :: rest)))
        = jsonInd (k + 1) ++ (printSnapshot (k + 1) s ++ snapTail (k + 1) k ss' rest) from by
      rw [← joinInd_snapTail k.succ k s ss' rest]
      simp]
    simp only [parseSnapshotArr]
    rw [expectTok_lbracket]
    simp only [Option.bind_eq_bind, Option.some_bind]
    rw [skipWs_nl, skipWs_jsonInd, skipWs_printSnapshot]
    split
    case _ r heq =>
      exfalso
      have := congrArg (fun l => l.headI) heq
      simp [printSnapshot] at this
    case _ i2 hne =>
      apply parseSnapshotListAux_go
      have hlen := snapTail_length (k + 1) k ss' rest
      simp only [List.length_append]
      omega

theorem parseSnapshotArr_sp (r : List Char) :
    parseSnapshotArr (' ' :: r) = parseSnapshotArr r := rfl

theorem parseHistory_marshal (h : HistoryData) :
    parseHistory (marshalHistory h) = some h := by
  simp only [parseHistory, marshalHistory, List.append_assoc, List.cons_append,
    List.nil_append]
  rw [expectTok_lbrace]
  simp only [Option.bind_eq_bind, Option.some_bind]
  rw [parseKey_nl, parseKey_jsonInd, parseKey_print]
  simp only [Option.some_bind]
  rw [show (' ' :: (printArr 1 (h.snapshots.map (printSnapshot 2)) ++ ['\n', '}']))
      = ' ' :: (printArr 1 (h.snapshots.map (printSnapshot 2)) ++ ('\n' :: ('}' :: []))) from rfl]
  rw [parseSnapshotArr_sp]
  rw [show printArr 1 (h.snapshots.map (printSnapshot 2)) = printArr 1 (h.snapshots.map (printSnapshot (1 + 1))) from by norm_num]
  rw [parseSnapshotArr_print]
  simp only [Option.some_bind]
  rw [expectTok_nl, expectTok_rbrace]
  simp only [Option.some_bind]
  rfl

/-! ## Characterizations of the scheduler, formatter and extractor -/

-- A. foldl → filterMap characterizations
theorem getAllDisksInfo_eq_filterMap (drives : List String)
    (probe : String → Option (Nat × Nat)) :
    getAllDisksInfo drives probe = drives.filterMap (getDiskSpace probe) := by
  suffices key : ∀ acc, drives.foldl (fun disks d =>
      match getDiskSpace probe d with
      | some info => disks ++ [info]
      | none => disks) acc = acc ++ drives.filterMap (getDiskSpace probe) by
    simpa [getAllDisksInfo] using key []
  induction drives with
  | nil => intro acc; simp
  | cons d ds ih =>
    intro acc
    cases hm : getDiskSpace probe d with
    | none => simp [List.foldl_cons, hm, ih]
    | some info => simp [List.foldl_cons, hm, ih]

theorem findDisk_eq_find? (v : String) (ds : List DiskInfo) :
    findDisk v ds = ds.find? (fun d => d.drive = v) := by
  induction ds with
  | nil => rfl
  | cons d ds ih =>
    by_cases h : d.drive = v
    · simp [findDisk, List.find?, h]
    · simp [findDisk, List.find?, h, ih]

theorem driveSeries_eq_filterMap (h : HistoryData) (v : String) :
    driveSeries h v
      = h.snapshots.filterMap (fun s => (findDisk v s.disks).map freeGB) := by
  suffices key : ∀ acc, h.snapshots.foldl (fun data s =>
      match findDisk v s.disks with
      | some d => data ++ [freeGB d]
      | none => data) acc
      = acc ++ h.snapshots.filterMap (fun s => (findDisk v s.disks).map freeGB) by
    simpa [driveSeries] using key []
  induction h.snapshots with
  | nil => intro acc; simp
  | cons s ss ih =>
    intro acc
    cases hm : findDisk v s.disks with
    | none => simp [List.foldl_cons, hm, ih]
    | some d => simp [List.foldl_cons, hm, ih]

-- B. formatLoop characterization
theorem formatLoop_spec (e : Nat) : ∀ (m den ex fuel : Nat), m < fuel →
    1024 ^ e ≤ m → m < 1024 ^ (e + 1) →
    formatLoop fuel m den ex = (den * 1024 ^ e, ex + e) := by
  induction e with
  | zero =>
    intro m den ex fuel hf h1 h2
    match fuel, hf with
    | f + 1, _ =>
      simp only [formatLoop]
      rw [if_neg (by simpa using h2)]
      simp
  | succ e ih =>
    intro m den ex fuel hf h1 h2
    have hm : 1024 ≤ m := by
      have : (1024 : Nat) ^ 1 ≤ 1024 ^ (e + 1) :=
        Nat.pow_le_pow_right (by norm_num) (by omega)
      simp only [pow_one] at this
      omega
    match fuel, hf with
    | f + 1, hf =>
      simp only [formatLoop]
      rw [if_pos hm]
      have hb1 : 1024 ^ e ≤ m / 1024 := by
        rw [Nat.le_div_iff_mul_le (by norm_num)]
        calc 1024 ^ e * 1024 = 1024 ^ (e + 1) := by rw [pow_succ]
          _ ≤ m := h1
      have hb2 : m / 1024 < 1024 ^ (e + 1) := by
        rw [Nat.div_lt_iff_lt_mul (by norm_num)]
        calc m < 1024 ^ (e + 1 + 1) := h2
          _ = 1024 ^ (e + 1) * 1024 := by rw [pow_succ]
      have hfd : m / 1024 < f := by
        have := Nat.div_lt_self (by omega : 0 < m) (by norm_num : 1 < 1024)
        omega
      rw [ih (m / 1024) (den * 1024) (ex + 1) f hfd hb1 hb2]
      rw [Prod.mk.injEq]
      constructor
      · rw [mul_assoc, ← pow_succ']
      · omega

theorem formatBytes_scaled (n e : Nat) (h1 : 1024 ^ (e + 1) ≤ n)
    (h2 : n < 1024 ^ (e + 2)) :
    formatBytes n = fmt1 n (1024 ^ (e + 1)) ++ " "
      ++ String.singleton (unitChars.getD e 'K') ++ "B" := by
  have hge : 1024 ≤ n := by
    have : (1024 : Nat) ^ 1 ≤ 1024 ^ (e + 1) :=
      Nat.pow_le_pow_right (by norm_num) (by omega)
    simp only [pow_one] at this
    omega
  have hb1 : 1024 ^ e ≤ n / 1024 := by
    rw [Nat.le_div_iff_mul_le (by norm_num)]
    calc 1024 ^ e * 1024 = 1024 ^ (e + 1) := by rw [pow_succ]
      _ ≤ n := h1
  have hb2 : n / 1024 < 1024 ^ (e + 1) := by
    rw [Nat.div_lt_iff_lt_mul (by norm_num)]
    calc n < 1024 ^ (e + 2) := h2
      _ = 1024 ^ (e + 1) * 1024 := by rw [pow_succ]
  have hf : n / 1024 < n := Nat.div_lt_self (by omega) (by norm_num)
  unfold formatBytes
  rw [if_neg (by omega)]
  rw [formatLoop_spec e (n / 1024) 1024 0 n hf hb1 hb2]
  have : 1024 * 1024 ^ e = 1024 ^ (e + 1) := by rw [pow_succ']
  simp [this]

-- C. chart labels
def hasVol (vol : String) (s : Snapshot) : Bool := (findDisk vol s.disks).isSome

def pointTimes (vol : String) (l : List Snapshot) : List Nat :=
  l.filterMap (fun s => (findDisk vol s.disks).map (fun _ => s.timestamp))

def specLabelTrack (isFirst : Bool) (lastLabeled : Int) : List Nat → List String
  | [] => []
  | t :: ts =>
    if isFirst = true ∨ ts = [] ∨ (t : Int) - lastLabeled > twelveHours then
      timeLabelFmt t :: specLabelTrack false (t : Int) ts
    else
      "" :: specLabelTrack false lastLabeled ts

theorem pointTimes_ne_nil (vol : String) (l : List Snapshot) (s : Snapshot)
    (hmem : s ∈ l) (hs : hasVol vol s = true) : pointTimes vol l ≠ [] := by
  intro hnil
  rw [pointTimes, List.filterMap_eq_nil_iff] at hnil
  have := hnil s hmem
  simp only [hasVol, Option.isSome_iff_exists] at hs
  obtain ⟨d, hd⟩ := hs
  rw [hd] at this
  simp at this

theorem chartLoop_cons (vol : String) (n i : Nat) (last : Int) (s : Snapshot)
    (l' : List Snapshot) :
    chartLoop vol n i last (s :: l') =
      match findDisk vol s.disks with
      | none => chartLoop vol n (i + 1) last l'
      | some d =>
        if i = 0 ∨ i = n - 1 ∨ (s.timestamp : Int) - last > twelveHours then
          let p := chartLoop vol n (i + 1) (s.timestamp : Int) l'
          (freeGB d :: p.1, timeLabelFmt s.timestamp :: p.2)
        else
          let p := chartLoop vol n (i + 1) last l'
          (freeGB d :: p.1, "" :: p.2) := rfl

theorem specLabelTrack_cons (isFirst : Bool) (lastLabeled : Int) (t : Nat)
    (ts : List Nat) :
    specLabelTrack isFirst lastLabeled (t :: ts) =
      if isFirst = true ∨ ts = [] ∨ (t : Int) - lastLabeled > twelveHours then
        timeLabelFmt t :: specLabelTrack false (t : Int) ts
      else
        "" :: specLabelTrack false lastLabeled ts := rfl

theorem chartLoop_labels_spec (vol : String) (n : Nat) :
    ∀ (l : List Snapshot) (i : Nat) (last : Int),
    i + l.length = n →
    (∀ s, l.getLast? = some s → hasVol vol s = true) →
    (i = 0 → ∀ s0, l.head? = some s0 → hasVol vol s0 = true) →
    (chartLoop vol n i last l).2 = specLabelTrack (decide (i = 0)) last (pointTimes vol l)
  | [], i, last, _, _, _ => by simp [chartLoop, pointTimes, specLabelTrack]
  | s :: l', i, last, hn, hlast, hhead => by
    have hn' : (i + 1) + l'.length = n := by
      simp only [List.length_cons] at hn
      omega
    have hhead' : i + 1 = 0 → ∀ s0, l'.head? = some s0 → hasVol vol s0 = true :=
      fun h0 => absurd h0 (by omega)
    cases hm : findDisk vol s.disks with
    | none =>
      have hi : i ≠ 0 := by
        intro h0
        have := hhead h0 s rfl
        simp [hasVol, hm] at this
      have hl' : l' ≠ [] := by
        intro h0
        subst h0
        have := hlast s rfl
        simp [hasVol, hm] at this
      have hlast' : ∀ s2, l'.getLast? = some s2 → hasVol vol s2 = true := by
        intro s2 hs2
        apply hlast
        rw [← hs2]
        match l', hl' with
        | x :: xs, _ => exact List.getLast?_cons_cons ..
      have hpt : pointTimes vol (s :: l') = pointTimes vol l' := by
        simp [pointTimes, List.filterMap_cons, hm]
      rw [chartLoop_cons, hm, hpt, decide_eq_false hi]
      rw [chartLoop_labels_spec vol n l' (i + 1) last hn' hlast' hhead']
      rw [decide_eq_false (by omega)]
    | some d =>
      have hpt : pointTimes vol (s :: l') = s.timestamp :: pointTimes vol l' := by
        simp [pointTimes, List.filterMap_cons, hm]
      have hiff : (i = n - 1) ↔ pointTimes vol l' = [] := by
        constructor
        · intro hlast1
          have : l' = [] := by
            cases l' with
            | nil => rfl
            | cons x xs =>
              exfalso
              simp only [List.length_cons] at hn
              omega
          subst this
          simp [pointTimes]
        · intro hnil
          have hl0 : l' = [] := by
            cases hl : l' with
            | nil => rfl
            | cons x xs =>
              exfalso
              subst hl
              have hsl : (x :: xs).getLast? = some ((x :: xs).getLast (by simp)) :=
                List.getLast?_eq_getLast _ (by simp)
              refine pointTimes_ne_nil vol (x :: xs) ((x :: xs).getLast (by simp))
                (List.getLast_mem _)
                (hlast _ (by rw [List.getLast?_cons_cons]; exact hsl)) hnil
          subst hl0
          simp at hn
          omega
      have hlast' : ∀ s2, l'.getLast? = some s2 → hasVol vol s2 = true := by
        intro s2 hs2
        cases l' with
        | nil => simp at hs2
        | cons x xs =>
          apply hlast
          rw [← hs2]
          exact List.getLast?_cons_cons ..
      have hrec0 := chartLoop_labels_spec vol n l' (i + 1) (s.timestamp : Int)
        hn' hlast' hhead'
      have hrec1 := chartLoop_labels_spec vol n l' (i + 1) last hn' hlast' hhead'
      rw [decide_eq_false (by omega : ¬ i + 1 = 0)] at hrec0 hrec1
      rw [chartLoop_cons, hm, hpt, specLabelTrack_cons]
      show (if i = 0 ∨ i = n - 1 ∨ (s.timestamp : Int) - last > twelveHours then
          (freeGB d :: (chartLoop vol n (i + 1) (s.timestamp : Int) l').1,
            timeLabelFmt s.timestamp :: (chartLoop vol n (i + 1) (s.timestamp : Int) l').2)
        else
          (freeGB d :: (chartLoop vol n (i + 1) last l').1,
            "" :: (chartLoop vol n (i + 1) last l').2)).2
        = if decide (i = 0) = true ∨ pointTimes vol l' = []
            ∨ (s.timestamp : Int) - last > twelveHours then
            timeLabelFmt s.timestamp :: specLabelTrack false (s.timestamp : Int)
              (pointTimes vol l')
          else "" :: specLabelTrack false last (pointTimes vol l')
      by_cases hcond : i = 0 ∨ i = n - 1 ∨ (s.timestamp : Int) - last > twelveHours
      · rw [if_pos hcond]
        have hspec : decide (i = 0) = true ∨ pointTimes vol l' = []
            ∨ (s.timestamp : Int) - last > twelveHours := by
          rcases hcond with h | h | h
          · exact Or.inl (decide_eq_true h)
          · exact Or.inr (Or.inl (hiff.mp h))
          · exact Or.inr (Or.inr h)
        rw [if_pos hspec]
        show timeLabelFmt s.timestamp :: (chartLoop vol n (i + 1) (s.timestamp : Int) l').2
          = timeLabelFmt s.timestamp :: specLabelTrack false (s.timestamp : Int)
              (pointTimes vol l')
        rw [hrec0]
      · rw [if_neg hcond]
        have hspec : ¬ (decide (i = 0) = true ∨ pointTimes vol l' = []
            ∨ (s.timestamp : Int) - last > twelveHours) := by
          rintro (h | h | h)
          · exact hcond (Or.inl (of_decide_eq_true h))
          · exact hcond (Or.inr (Or.inl (hiff.mpr h)))
          · exact hcond (Or.inr (Or.inr h))
        rw [if_neg hspec]
        show "" :: (chartLoop vol n (i + 1) last l').2
          = "" :: specLabelTrack false last (pointTimes vol l')
        rw [hrec1]

theorem chartLoop_align (vol : String) (n : Nat) :
    ∀ (l : List Snapshot) (i : Nat) (last : Int),
    (chartLoop vol n i last l).1.length = (chartLoop vol n i last l).2.length
  | [], _, _ => rfl
  | s :: l', i, last => by
    rw [chartLoop_cons]
    cases hm : findDisk vol s.disks with
    | none => exact chartLoop_align vol n l' (i + 1) last
    | some d =>
      show (if i = 0 ∨ i = n - 1 ∨ (s.timestamp : Int) - last > twelveHours then
          (freeGB d :: (chartLoop vol n (i + 1) (s.timestamp : Int) l').1,
            timeLabelFmt s.timestamp :: (chartLoop vol n (i + 1) (s.timestamp : Int) l').2)
        else
          (freeGB d :: (chartLoop vol n (i + 1) last l').1,
            "" :: (chartLoop vol n (i + 1) last l').2)).1.length
        = (if i = 0 ∨ i = n - 1 ∨ (s.timestamp : Int) - last > twelveHours then
          (freeGB d :: (chartLoop vol n (i + 1) (s.timestamp : Int) l').1,
            timeLabelFmt s.timestamp :: (chartLoop vol n (i + 1) (s.timestamp : Int) l').2)
        else
          (freeGB d :: (chartLoop vol n (i + 1) last l').1,
            "" :: (chartLoop vol n (i + 1) last l').2)).2.length
      by_cases hc : i = 0 ∨ i = n - 1 ∨ (s.timestamp : Int) - last > twelveHours
      · rw [if_pos hc]
        simpa using chartLoop_align vol n l' (i + 1) (s.timestamp : Int)
      · rw [if_neg hc]
        simpa using chartLoop_align vol n l' (i + 1) last

theorem chartPoints_labels (h : HistoryData) (vol : String)
    (hfirst : ∀ s, h.snapshots.head? = some s → hasVol vol s = true)
    (hlast : ∀ s, h.snapshots.getLast? = some s → hasVol vol s = true) :
    (chartPoints h vol).2 = specLabelTrack true 0 (pointTimes vol h.snapshots) := by
  have := chartLoop_labels_spec vol h.snapshots.length h.snapshots 0 0 (by simp)
    hlast (fun _ => hfirst)
  simpa [chartPoints] using this

-- concrete sanity for claims
def hrNs : Nat := 3600000000000
def snapOne (t free : Nat) : Snapshot :=
  { timestamp := t,
    disks := [{ drive := "C:\\", total_space := 500, free_space := free,
                used_space := 500 - free }] }
def exHist : HistoryData :=
  { snapshots := [snapOne 0 1, snapOne hrNs 2, snapOne (13 * hrNs) 3,
                  snapOne (14 * hrNs) 4] }
def badHist : HistoryData :=
  { snapshots := [snapOne 0 1, snapOne hrNs 2, { timestamp := 2 * hrNs, disks := [] }] }


/-! ## Claim theorems -/

set_option maxRecDepth 8000

instance {ε α : Type} [DecidableEq ε] [DecidableEq α] : DecidableEq (Except ε α) := fun x y =>
  match x, y with
  | .ok a, .ok b => if h : a = b then .isTrue (by simp [h]) else .isFalse (by simp [h])
  | .error a, .error b => if h : a = b then .isTrue (by simp [h]) else .isFalse (by simp [h])
  | .ok _, .error _ => .isFalse (by simp)
  | .error _, .ok _ => .isFalse (by simp)

/-- Probe success unfolds `getDiskSpace`. -/
theorem getDiskSpace_some (probe : String → Option (Nat × Nat)) (d : String)
    (t f : Nat) (hp : probe d = some (t, f)) :
    getDiskSpace probe d = some { drive := d, total_space := t, free_space := f,
                                  used_space := u64sub t f } := by
  unfold getDiskSpace
  rw [hp]

/-- Probe failure unfolds `getDiskSpace`. -/
theorem getDiskSpace_none (probe : String → Option (Nat × Nat)) (d : String)
    (hp : probe d = none) : getDiskSpace probe d = none := by
  unfold getDiskSpace
  rw [hp]

/-- One probe, described as an `Option.map`. -/
theorem getDiskSpace_eq_map (probe : String → Option (Nat × Nat)) (d : String) :
    getDiskSpace probe d = (probe d).map (fun p =>
      { drive := d, total_space := p.1, free_space := p.2,
        used_space := u64sub p.1 p.2 }) := by
  cases hp : probe d with
  | none => rw [getDiskSpace_none probe d hp, Option.map_none']
  | some p => rw [getDiskSpace_some probe d p.1 p.2 (by rw [hp]), Option.map_some']

-- C1 counterexample
/-- C1, counterexample: the claim "every VolumeInfo included in a
Snapshot satisfies free ≤ total; a probe result with free > total is
rejected before inclusion" is false of the code.  A probe reporting
total = 100, free = 200 is included in the collected disk list as-is,
with the wrapped used count `2^64 - 100`. -/
theorem probe_invariant_counterexample :
    getAllDisksInfo ["C:\\"] (fun _ => some (100, 200))
      = [{ drive := "C:\\", total_space := 100, free_space := 200,
           used_space := 2 ^ 64 - 100 }]
    ∧ ¬ (∀ d ∈ getAllDisksInfo ["C:\\"] (fun _ => some (100, 200)),
          d.free_space ≤ d.total_space) := by
  decide

-- C1 amended
/-- C1, amended: no free ≤ total validation exists anywhere between
the probe and the snapshot.  `getAllDisksInfo` is exactly the list of
successful probe results in drive order, each stored verbatim with
`used_space = (total - free) mod 2^64`, regardless of whether
free ≤ total. -/
theorem probe_invariant_not_enforced (drives : List String)
    (probe : String → Option (Nat × Nat)) :
    getAllDisksInfo drives probe
      = drives.filterMap (fun d => (probe d).map (fun p =>
          { drive := d, total_space := p.1, free_space := p.2,
            used_space := u64sub p.1 p.2 })) := by
  rw [getAllDisksInfo_eq_filterMap]
  congr 1
  funext d
  rw [getDiskSpace_eq_map]

-- C10
/-- C10: for every successful probe result the stored UsedSpace is
the 64-bit wrapping difference `(TotalSpace - FreeSpace) mod 2^64`;
when the probe primitive reports free > total the used count wraps to
`2^64 - (free - total)`, a near-2^64 value, and the entry is still
included in the snapshot without validation. -/
theorem usedSpace_wrapping (drive : String) (total free : Nat)
    (ht : total < 2 ^ 64) (hf : free < 2 ^ 64) :
    getDiskSpace (fun _ => some (total, free)) drive
      = some { drive := drive, total_space := total, free_space := free,
               used_space := (2 ^ 64 + total - free) % 2 ^ 64 }
    ∧ (total < free →
        (2 ^ 64 + total - free) % 2 ^ 64 = 2 ^ 64 - (free - total)
        ∧ getAllDisksInfo [drive] (fun _ => some (total, free))
          = [{ drive := drive, total_space := total, free_space := free,
               used_space := 2 ^ 64 - (free - total) }]) := by
  have hmod : free % 2 ^ 64 = free := Nat.mod_eq_of_lt hf
  have hu : u64sub total free = (2 ^ 64 + total - free) % 2 ^ 64 := by
    unfold u64sub
    rw [hmod]
  have h1 : getDiskSpace (fun _ => some (total, free)) drive
      = some { drive := drive, total_space := total, free_space := free,
               used_space := (2 ^ 64 + total - free) % 2 ^ 64 } := by
    rw [getDiskSpace_some _ _ total free rfl, hu]
  refine ⟨h1, fun hlt => ?_⟩
  have h2 : (2 ^ 64 + total - free) % 2 ^ 64 = 2 ^ 64 - (free - total) := by
    have : 2 ^ 64 + total - free < 2 ^ 64 := by omega
    rw [Nat.mod_eq_of_lt this]
    omega
  refine ⟨h2, ?_⟩
  simp only [getAllDisksInfo, List.foldl_cons, List.foldl_nil, h1, List.nil_append]
  rw [h2]

/-- C10, witness: evaluated at drive "C:\\" with total = 100 and
free = 200. -/
theorem usedSpace_wrapping_witness :
    (100 : Nat) < 2 ^ 64 ∧ (200 : Nat) < 2 ^ 64 ∧ (100 : Nat) < 200
    ∧ getDiskSpace (fun _ => some (100, 200)) "C:\\"
      = some { drive := "C:\\", total_space := 100, free_space := 200,
               used_space := (2 ^ 64 + 100 - 200) % 2 ^ 64 }
    ∧ (2 ^ 64 + 100 - 200) % 2 ^ 64 = 2 ^ 64 - (200 - 100)
    ∧ getAllDisksInfo ["C:\\"] (fun _ => some (100, 200))
      = [{ drive := "C:\\", total_space := 100, free_space := 200,
           used_space := 2 ^ 64 - (200 - 100) }] := by
  have h := usedSpace_wrapping "C:\\" 100 200 (by decide) (by decide)
  have h2 := h.2 (by decide)
  exact ⟨by decide, by decide, by decide, h.1, h2.1, h2.2⟩

-- C2
/-- C2: for every well-formed persisted history file `f` and snapshot
`s`, load-append-persist-load yields exactly the appended history:
`load(persist(append(load f, s))) = append(load f, s)`, with drive
names, byte-exact capacity numbers and timestamps preserved (equality
of `HistoryData`). -/
theorem history_roundtrip (f : String) (h : HistoryData) (s : Snapshot)
    (hload : loadHistory (some f) = .ok h) :
    loadHistory (some (saveHistory (appendSnapshot h s)))
      = .ok (appendSnapshot h s) := by
  show (match parseHistory (marshalHistory (appendSnapshot h s)) with
    | some h2 => Except.ok h2
    | none => Except.error LoadError.malformed) = .ok (appendSnapshot h s)
  rw [parseHistory_marshal]

/-- A concrete snapshot matching the README's data-format example. -/
def exSnap : Snapshot :=
  { timestamp := 1705314600000000000,
    disks := [{ drive := "C:\\", total_space := 500000000000,
                free_space := 150000000000, used_space := 350000000000 }] }

/-- C2, witness: evaluated at the serialized empty history and one
concrete snapshot. -/
theorem history_roundtrip_witness :
    loadHistory (some (marshalHistory { snapshots := [] }))
      = .ok { snapshots := [] }
    ∧ loadHistory (some (saveHistory (appendSnapshot { snapshots := [] } exSnap)))
      = .ok (appendSnapshot { snapshots := [] } exSnap) :=
  ⟨by decide,
   history_roundtrip (marshalHistory { snapshots := [] }) { snapshots := [] } exSnap
     (by decide)⟩

-- C4 counterexample
/-- C4, counterexample: `saveHistory` writes in place with a single
`os.WriteFile` and no temp-file-and-rename, so a write interrupted
after one byte leaves the file holding `"\x7b"` — neither the old nor the
new complete content — and a subsequent load reports it malformed.
This falsifies "a subsequent load never observes a half-written file it
cannot parse". -/
theorem persist_torn_counterexample :
    writeInterrupted (saveHistory { snapshots := [exSnap] }) 1 = "\x7b"
    ∧ loadHistory (some (writeInterrupted (saveHistory { snapshots := [exSnap] }) 1))
      = .error .malformed
    ∧ writeInterrupted (saveHistory { snapshots := [exSnap] }) 1
      ≠ saveHistory { snapshots := [exSnap] }
    ∧ writeInterrupted (saveHistory { snapshots := [exSnap] }) 1
      ≠ saveHistory { snapshots := [] } := by
  refine ⟨by decide, ?_, by decide, by decide⟩
  decide

-- C4 amended
/-- C4, amended: persist serializes the full History and overwrites
the backing file in place, with no atomicity guarantee: only a
completed write ensures that a subsequent load parses and yields
exactly the persisted history; an interrupted write can leave an
unparseable prefix. -/
theorem persist_completed_load (h : HistoryData) :
    loadHistory (some (saveHistory h)) = .ok h := by
  show (match parseHistory (marshalHistory h) with
    | some h2 => Except.ok h2
    | none => Except.error LoadError.malformed) = .ok h
  rw [parseHistory_marshal]

-- C7
/-- C7: `loadHistory` never fails when the history file is absent —
it returns the empty history — while unparseable content is reported
as an error, an outcome distinct from the absent case rather than a
silent discard. -/
theorem load_absent_vs_malformed (content : String)
    (hbad : parseHistory content = none) :
    loadHistory none = .ok { snapshots := [] }
    ∧ loadHistory (some content) = .error .malformed
    ∧ loadHistory (some content) ≠ loadHistory none := by
  have h2 : loadHistory (some content) = .error .malformed := by
    show (match parseHistory content with
      | some h2 => Except.ok h2
      | none => Except.error LoadError.malformed) = .error .malformed
    rw [hbad]
  exact ⟨rfl, h2, by rw [h2]; intro hc; cases hc⟩

/-- C7, witness: evaluated at the malformed content `"\x7b"`. -/
theorem load_absent_vs_malformed_witness :
    parseHistory "\x7b" = none
    ∧ (loadHistory none = .ok { snapshots := [] }
       ∧ loadHistory (some "\x7b") = .error .malformed
       ∧ loadHistory (some "\x7b") ≠ loadHistory none) :=
  ⟨by decide, load_absent_vs_malformed "\x7b" (by decide)⟩

-- Update's gate on diskInfoMsg (dashboard caller)
/-- Gate of the dashboard `Update` handler on `diskInfoMsg`: an empty
disk list sets the error "no drives found". -/
def updateDiskMsgErr (disks : List DiskInfo) : Option String :=
  if disks.isEmpty then some "no drives found" else none

-- C5 counterexample
/-- C5, counterexample: the claim that `probeAll` yields an explicit
NoVolumesMeasured condition "distinct from merely returning an empty
volume list" is false of the code.  `getAllDisksInfo` returns a bare
`List DiskInfo`: an empty drive list and an all-failing probe produce
the same plain `[]`, so no signal other than list emptiness exists. -/
theorem noVolumes_counterexample :
    getAllDisksInfo [] (fun _ => none) = ([] : List DiskInfo)
    ∧ getAllDisksInfo ["C:\\"] (fun _ => none) = ([] : List DiskInfo)
    ∧ getAllDisksInfo [] (fun _ => none)
      = getAllDisksInfo ["C:\\"] (fun _ => none) := by
  decide

-- C5 amended
/-- C5, amended: both an empty volume list and all-failing probes
yield the empty list, and the callers detect "nothing usable was
measured" precisely by list emptiness: `collectAndSave` fails with
"no drives found" exactly when the collected list is empty, and the
dashboard's disk-message handler sets the same error on an empty
list. -/
theorem noVolumes_by_emptiness (drives : List String)
    (probe : String → Option (Nat × Nat)) (now : Nat) (file : Option String) :
    (getAllDisksInfo drives probe = [] ↔
      collectAndSave drives probe now file = .error "no drives found")
    ∧ (drives = [] → getAllDisksInfo drives probe = [])
    ∧ ((∀ d, probe d = none) → getAllDisksInfo drives probe = [])
    ∧ (getAllDisksInfo drives probe = [] →
        updateDiskMsgErr (getAllDisksInfo drives probe) = some "no drives found") := by
  refine ⟨?_, ?_, ?_, ?_⟩
  · constructor
    · intro he
      unfold collectAndSave
      rw [he]
      rfl
    · intro hc
      by_cases he : getAllDisksInfo drives probe = []
      · exact he
      · exfalso
        unfold collectAndSave at hc
        rw [if_neg (by simpa using he)] at hc
        cases hl : loadHistory file with
        | error e => rw [hl] at hc; injection hc with hs; exact absurd hs (by decide)
        | ok hist => rw [hl] at hc; cases hc
  · intro hd
    subst hd
    rfl
  · intro hall
    rw [getAllDisksInfo_eq_filterMap]
    apply List.filterMap_eq_nil_iff.mpr
    intro d _
    exact getDiskSpace_none probe d (hall d)
  · intro he
    rw [he]
    rfl

/-- C5, witness: one drive whose probe always fails. -/
theorem noVolumes_witness :
    getAllDisksInfo ["C:\\"] (fun _ => none) = []
    ∧ collectAndSave ["C:\\"] (fun _ => none) 5 none = .error "no drives found" :=
  ⟨by decide,
   (noVolumes_by_emptiness ["C:\\"] (fun _ => none) 5 none).1.mp (by decide)⟩

-- C6
/-- C6: with fewer than two snapshots, `renderChartView` yields the
needs-more-history message for every volume (a normal outcome, not an
error), and `updateChart` returns the model unchanged — no series,
label track or stats are produced. -/
theorem insufficient_data (vol : String) (m : Model)
    (hlen : m.history.snapshots.length < 2) :
    renderChartView m.history vol
      = .insufficient
        "Not enough data for a graph yet.\nRun the program a few times to build history.\n"
    ∧ updateChart m = m := by
  constructor
  · unfold renderChartView
    rw [if_pos hlen]
  · unfold updateChart
    rw [if_pos hlen]

/-- C6, witness: a one-snapshot history. -/
theorem insufficient_data_witness :
    ({ history := { snapshots := [exSnap] }, graphs := [] } : Model).history.snapshots.length < 2
    ∧ (renderChartView ({ history := { snapshots := [exSnap] }, graphs := [] } : Model).history "C:\\"
        = .insufficient
          "Not enough data for a graph yet.\nRun the program a few times to build history.\n"
       ∧ updateChart { history := { snapshots := [exSnap] }, graphs := [] } =
          { history := { snapshots := [exSnap] }, graphs := [] }) :=
  ⟨by decide, insufficient_data "C:\\" { history := { snapshots := [exSnap] }, graphs := [] }
    (by decide)⟩

-- C8
/-- C8: for every history and chosen volume the extracted series has
exactly one point per snapshot containing the volume — the first
matching entry's free space divided by 1024³ — emitted in storage
order; snapshots missing the volume contribute no point and do not
break the sequence. -/
theorem series_extraction (h : HistoryData) (vol : String) :
    driveSeries h vol = h.snapshots.filterMap
      (fun s => (s.disks.find? (fun d => d.drive = vol)).map
        (fun d => (d.free_space : ℚ) / 1024 ^ 3)) := by
  rw [driveSeries_eq_filterMap]
  congr 1
  funext s
  rw [findDisk_eq_find?]
  cases s.disks.find? (fun d => d.drive = vol) with
  | none => rfl
  | some d =>
    simp only [Option.map_some']
    congr 1
    unfold freeGB
    ring

-- C9
/-- C9: `formatBytes` renders every value under 1024 as an integer
byte count with unit B and otherwise scales by powers of 1024 through
the unit sequence KB MB GB TB PB EB ("KMGTPE" indexed by the exponent,
which stays below 6 for 64-bit inputs), rendering exactly one
fractional digit; the four specification examples hold. -/
theorem formatBytes_spec (n : Nat) (hn : n < 2 ^ 64) :
    (n < 1024 → formatBytes n = Nat.repr n ++ " B")
    ∧ (∀ e, 1024 ^ (e + 1) ≤ n → n < 1024 ^ (e + 2) →
        formatBytes n = fmt1 n (1024 ^ (e + 1)) ++ " "
          ++ String.singleton (unitChars.getD e 'K') ++ "B")
    ∧ (∀ e, 1024 ^ (e + 1) ≤ n → e < 6)
    ∧ formatBytes 0 = "0 B" ∧ formatBytes 1023 = "1023 B"
    ∧ formatBytes 1024 = "1.0 KB" ∧ formatBytes 1536 = "1.5 KB" := by
  refine ⟨?_, ?_, ?_, by decide, by decide, by decide, by decide⟩
  · intro hlt
    unfold formatBytes
    rw [if_pos hlt]
  · intro e h1 h2
    exact formatBytes_scaled n e h1 h2
  · intro e h1
    by_contra h6
    have h7 : (1024 : Nat) ^ 7 ≤ 1024 ^ (e + 1) :=
      Nat.pow_le_pow_right (by norm_num) (by omega)
    have hv : (1024 : Nat) ^ 7 = 1180591620717411303424 := by norm_num
    have hw : (2 : Nat) ^ 64 = 18446744073709551616 := by norm_num
    omega

/-- C9, witness: evaluated at 1536 bytes (and the three other
specification examples). -/
theorem formatBytes_spec_witness :
    (1536 : Nat) < 2 ^ 64 ∧ (1024 : Nat) ^ 1 ≤ 1536 ∧ (1536 : Nat) < 1024 ^ 2
    ∧ formatBytes 1536 = fmt1 1536 (1024 ^ 1) ++ " "
        ++ String.singleton (unitChars.getD 0 'K') ++ "B"
    ∧ (0 : Nat) < 6
    ∧ formatBytes 0 = "0 B" ∧ formatBytes 1023 = "1023 B"
    ∧ formatBytes 1024 = "1.0 KB" ∧ formatBytes 1536 = "1.5 KB" := by
  have h := formatBytes_spec 1536 (by decide)
  exact ⟨by decide, by decide, by decide, h.2.1 0 (by decide) (by decide),
    h.2.2.1 0 (by decide), h.2.2.2.1, h.2.2.2.2.1, h.2.2.2.2.2.1, h.2.2.2.2.2.2⟩

-- C3 counterexample: volume absent from the last snapshot; the final
-- point's label is blank even though the claim requires the last point
-- to carry a timestamp label.
/-- C3, counterexample: the claim that the LabelTrack carries a
label at the last point is false of the code, which tests the snapshot
index, not the point index.  With the volume present in the first two
of three snapshots but absent from the last, the series has two points
and the final label is blank. -/
theorem labelTrack_counterexample :
    (chartPoints badHist "C:\\").1.length = 2
    ∧ (chartPoints badHist "C:\\").2 = [timeLabelFmt 0, ""]
    ∧ (chartPoints badHist "C:\\").2.getLast? = some ""
    ∧ timeLabelFmt hrNs ≠ "" := by
  refine ⟨by decide, by decide, by decide, by decide⟩

-- C3 amended
/-- C3, amended: provided the volume is present in both the first
and the last snapshot of the history, the LabelTrack is index-aligned
with the series and equals the claimed rule — a timestamp label at the
first point, the last point, and every point whose timestamp is more
than 12 hours after the previously labelled one, all other positions
blank; in particular for one volume at T, T+1h, T+13h, T+14h the
positions 0, 2, 3 are labelled and position 1 is blank.  (Without the
presence condition the code labels by snapshot index and the last
point can be blank, as the counterexample shows.) -/
theorem labelTrack_rule (h : HistoryData) (vol : String)
    (hfirst : ∀ s, h.snapshots.head? = some s → hasVol vol s = true)
    (hlast : ∀ s, h.snapshots.getLast? = some s → hasVol vol s = true) :
    ((chartPoints h vol).1.length = (chartPoints h vol).2.length
      ∧ (chartPoints h vol).2 = specLabelTrack true 0 (pointTimes vol h.snapshots))
    ∧ (chartPoints exHist "C:\\").2
        = [timeLabelFmt 0, "", timeLabelFmt (13 * hrNs), timeLabelFmt (14 * hrNs)] := by
  refine ⟨⟨?_, chartPoints_labels h vol hfirst hlast⟩, by decide⟩
  unfold chartPoints
  exact chartLoop_align vol h.snapshots.length h.snapshots 0 0

/-- C3, witness: the T, T+1h, T+13h, T+14h history with the volume
in every snapshot. -/
theorem labelTrack_rule_witness :
    (∀ s, exHist.snapshots.head? = some s → hasVol "C:\\" s = true)
    ∧ (∀ s, exHist.snapshots.getLast? = some s → hasVol "C:\\" s = true)
    ∧ (((chartPoints exHist "C:\\").1.length = (chartPoints exHist "C:\\").2.length
        ∧ (chartPoints exHist "C:\\").2
          = specLabelTrack true 0 (pointTimes "C:\\" exHist.snapshots))
       ∧ (chartPoints exHist "C:\\").2
          = [timeLabelFmt 0, "", timeLabelFmt (13 * hrNs), timeLabelFmt (14 * hrNs)]) := by
  have hh : ∀ s, exHist.snapshots.head? = some s → hasVol "C:\\" s = true := by
    intro s hs
    have h0 : exHist.snapshots.head? = some (snapOne 0 1) := by decide
    rw [h0, Option.some.injEq] at hs
    rw [← hs]
    decide
  have hl : ∀ s, exHist.snapshots.getLast? = some s → hasVol "C:\\" s = true := by
    intro s hs
    have h0 : exHist.snapshots.getLast? = some (snapOne (14 * hrNs) 4) := by decide
    rw [h0, Option.some.injEq] at hs
    rw [← hs]
    decide
  exact ⟨hh, hl, labelTrack_rule exHist "C:\\" hh hl⟩
